import Mathlib

/-!
Verification of the read-marker / retention-decision core of
`synapse/handlers/read_marker.py`.

Event, user and room identifiers are opaque; we model event ids and user
ids as natural numbers.  An event's position in the room's totally ordered
stream is its `OrderKey`, a pair (depth, stream-position) compared
lexicographically, exactly as the Python code compares the tuples returned
by `get_events_orderings`.

The collaborators (`MarkerStore`, `OrderingOracle`, `NotificationPublisher`,
`RetentionTrigger`) are modelled at their interface boundary: the marker
store for one room is an association list from user to event id, the
ordering oracle is a partial map `EventId → Option OrderKey` (`none` means
the oracle cannot resolve the id), and notification / retention are
recorded as observable outputs of each operation rather than performed.
-/

abbrev EventId := Nat
abbrev UserId := Nat
abbrev OrderKey := Nat × Nat

/-- The ordering oracle: assigns each resolvable event id its order key. -/
abbrev Oracle := EventId → Option OrderKey

/-- The per-room marker mapping (`user → event id`), as returned by
`get_account_data_for_room_and_type_any_user` restricted to `m.fully_read`. -/
abbrev Markers := List (UserId × EventId)

/-- Lexicographic comparison of order keys, mirroring Python tuple `<`. -/
def okLt (a b : OrderKey) : Bool :=
  decide (a.1 < b.1) || (decide (a.1 = b.1) && decide (a.2 < b.2))

/-- Association-list lookup (first binding wins, like a Python dict with
unique keys). -/
def alookup {β : Type} : List (Nat × β) → Nat → Option β
  | [], _ => none
  | (k, v) :: rest, k' => if k = k' then some v else alookup rest k'

/-- Update the binding for `u` in place, or append it if absent —
the effect of `add_account_data_to_room` on the room's marker mapping. -/
def setMarker : Markers → UserId → EventId → Markers
  | [], u, e => [(u, e)]
  | (u', e') :: rest, u, e =>
      if u' = u then (u, e) :: rest else (u', e') :: setMarker rest u e

/-- `store.is_event_after(a, b)`: whether `a` is strictly after `b` in the
stream; fails (`none`) when either event id cannot be resolved. -/
def isEventAfter (ok : Oracle) (a b : EventId) : Option Bool :=
  match ok a, ok b with
  | some ka, some kb => some (okLt kb ka)
  | _, _ => none

/-- Resolve every id in a list, failing if any is unresolvable. -/
def resolveAll (ok : Oracle) : List EventId → Option (List (EventId × OrderKey))
  | [] => some []
  | i :: rest =>
      match ok i, resolveAll ok rest with
      | some k, some tl => some ((i, k) :: tl)
      | _, _ => none

/-- `store.get_events_orderings(event_ids)`: a mapping from each distinct
event id in the list to its order key; fails if any id is unresolvable. -/
def getEventsOrderings (ok : Oracle) (ids : List EventId) :
    Option (List (EventId × OrderKey)) :=
  resolveAll ok ids.dedup

/-- Failure outcomes of an operation (collaborator failures abort before
any write). -/
inductive MarkerError
  | UnknownEvent
  deriving DecidableEq, Repr

/-- Outcome of `received_client_read_marker`: the resulting marker mapping
and whether the marker write (and with it the notification) happened. -/
structure UpdateResult where
  markers : Markers
  notified : Bool
  deriving DecidableEq, Repr

/-- `received_client_read_marker(room_id, user_id, event_id)`, the body
executed while holding the `(room_id, user_id)` serialization key.  Reads
the existing marker; if one exists, updates only when the candidate is
strictly after it; otherwise writes unconditionally. -/
def receivedClientReadMarker (ok : Oracle) (markers : Markers)
    (user : UserId) (event : EventId) : Except MarkerError UpdateResult :=
  match alookup markers user with
  | none => .ok { markers := setMarker markers user event, notified := true }
  | some existing =>
      match isEventAfter ok event existing with
      | none => .error .UnknownEvent
      | some true =>
          .ok { markers := setMarker markers user event, notified := true }
      | some false => .ok { markers := markers, notified := false }

/-- Observable steps of the room-wide operation, in execution order. -/
inductive TraceStep
  | readMarkers
  | writeMarker (user : UserId) (event : EventId)
  | notifyUser (user : UserId)
  | releaseKey
  | retain (watermark : OrderKey)
  deriving DecidableEq, Repr

/-- Outcome of `received_client_read_marker_and_purge_history`:
resulting markers, whether write+notification happened, the retention
watermark passed to `mark_events_expired_before` (if invoked), and the
ordered trace of observable steps. -/
structure PurgeResult where
  markers : Markers
  notified : Bool
  purged : Option OrderKey
  trace : List TraceStep
  deriving DecidableEq, Repr

/-- `received_client_read_marker_and_purge_history(room_id, user_id,
event_id)`: executed while holding the room-level serialization key, except
for the final retention call which happens after release.  Fetches all
markers for the room, applies the same monotonicity rule as the
single-user operation, and on an applying update counts how many distinct
candidate-set ids order strictly below the candidate; retention fires when
that count is 1 or the fetched mapping was empty. -/
def receivedClientReadMarkerAndPurgeHistory (ok : Oracle) (markers : Markers)
    (user : UserId) (event : EventId) : Except MarkerError PurgeResult :=
  let shouldUpd : Option Bool :=
    match alookup markers user with
    | none => some true
    | some existing => isEventAfter ok event existing
  match shouldUpd with
  | none => .error .UnknownEvent
  | some false =>
      .ok { markers := markers, notified := false, purged := none,
            trace := [.readMarkers, .releaseKey] }
  | some true =>
      match getEventsOrderings ok (markers.map Prod.snd ++ [event]) with
      | none => .error .UnknownEvent
      | some eventsOrder =>
          match alookup eventsOrder event with
          | none => .error .UnknownEvent
          | some thisOrder =>
              let lessCount :=
                (eventsOrder.filter (fun p => okLt p.2 thisOrder)).length
              let shouldPurge := lessCount == 1 || markers.isEmpty
              .ok { markers := setMarker markers user event,
                    notified := true,
                    purged := if shouldPurge then some thisOrder else none,
                    trace :=
                      [.readMarkers, .writeMarker user event,
                       .notifyUser user, .releaseKey]
                      ++ (if shouldPurge then [TraceStep.retain thisOrder]
                          else []) }

/-- Whether the update applies (step 2/3 of the room-wide operation): the
user has no marker yet, or the candidate is strictly after the stored one. -/
def updateAppliesB (ok : Oracle) (markers : Markers)
    (user : UserId) (event : EventId) : Bool :=
  match alookup markers user with
  | none => true
  | some existing => isEventAfter ok event existing == some true

/-- The retention decision exactly as the specification words it: the
candidate set is every event id currently in the mapping plus the
candidate; `count` the distinct ids in that set whose order key is strictly
below the candidate's key `T`; retain iff `count = 1` or the fetched
mapping was empty. -/
def specShouldRetain (ok : Oracle) (markers : Markers)
    (event : EventId) (T : OrderKey) : Bool :=
  ((markers.map Prod.snd ++ [event]).dedup.countP
      (fun i => match ok i with | some k => okLt k T | none => false) == 1)
  || markers.isEmpty

/-- A client-submitted update, via either exposed operation. -/
inductive Op
  | update (user : UserId) (event : EventId)
  | updatePurge (user : UserId) (event : EventId)
  deriving DecidableEq, Repr

/-- State transition of the room's marker mapping under one operation.
A failing operation aborts before any write, leaving the mapping unchanged. -/
def applyOp (ok : Oracle) (m : Markers) : Op → Markers
  | .update u e =>
      match receivedClientReadMarker ok m u e with
      | .ok r => r.markers
      | .error _ => m
  | .updatePurge u e =>
      match receivedClientReadMarkerAndPurgeHistory ok m u e with
      | .ok r => r.markers
      | .error _ => m

/-- Modelled from the spec: the KeyedSerializer (the `Linearizer` from
`synapse.util.async_helpers`, whose code is not under `src/`).  Per §4.1
it admits at most one in-flight operation per key, serves same-key
requests in FIFO arrival order, and releases on every exit path including
errors; hence the net effect of N same-key `updateMarker` requests is
their sequential execution in admission order, an erroring request
leaving the state unchanged and the key free for the next. -/
def runSerialized (ok : Oracle) (m : Markers)
    (reqs : List (UserId × EventId)) : Markers :=
  reqs.foldl (fun st r =>
    match receivedClientReadMarker ok st r.1 r.2 with
    | .ok res => res.markers
    | .error _ => st) m

/-- Concrete oracle for the worked examples of §8:
event 1 ↦ (5,0), event 2 ↦ (8,0), event 3 ↦ (9,0). -/
def oracleExamples : Oracle := fun i =>
  if i = 1 then some (5, 0)
  else if i = 2 then some (8, 0)
  else if i = 3 then some (9, 0)
  else none

/-- An oracle that resolves nothing. -/
def oracleNone : Oracle := fun _ => none

/-! ### Basic lemmas about the order, lookup and update primitives -/

lemma okLt_iff (a b : OrderKey) :
    okLt a b = true ↔ a.1 < b.1 ∨ (a.1 = b.1 ∧ a.2 < b.2) := by
  simp [okLt]

lemma okLt_irrefl (a : OrderKey) : okLt a a = false := by
  simp [okLt]

lemma okLt_asymm {a b : OrderKey} (h : okLt a b = true) : okLt b a = false := by
  rw [okLt_iff] at h
  rw [← Bool.not_eq_true, okLt_iff]
  omega

lemma okLt_false_trans {a b c : OrderKey} (h1 : okLt b a = false)
    (h2 : okLt c b = false) : okLt c a = false := by
  rw [← Bool.not_eq_true, okLt_iff] at h1 h2 ⊢
  omega

lemma alookup_setMarker_self (m : Markers) (u : UserId) (e : EventId) :
    alookup (setMarker m u e) u = some e := by
  induction m with
  | nil => simp [setMarker, alookup]
  | cons p rest ih =>
      obtain ⟨u', e'⟩ := p
      by_cases h : u' = u
      · simp [setMarker, h, alookup]
      · simp [setMarker, h, alookup, ih]

lemma alookup_setMarker_ne (m : Markers) (u v : UserId) (e : EventId)
    (h : u ≠ v) : alookup (setMarker m u e) v = alookup m v := by
  induction m with
  | nil => simp [setMarker, alookup, h]
  | cons p rest ih =>
      obtain ⟨u', e'⟩ := p
      by_cases h' : u' = u
      · subst h'
        simp [setMarker, alookup, h]
      · by_cases h'' : u' = v
        · subst h''
          simp [setMarker, alookup, h']
        · simp [setMarker, alookup, h', h'', ih]

lemma resolveAll_alookup (ok : Oracle) :
    ∀ (l : List EventId) (ps : List (EventId × OrderKey)),
      resolveAll ok l = some ps → ∀ i ∈ l, alookup ps i = ok i
  | [], ps, h, i, hi => absurd hi (List.not_mem_nil i)
  | j :: rest, ps, h, i, hi => by
      rw [resolveAll] at h
      cases hj : ok j with
      | none =>
          cases hr : resolveAll ok rest with
          | none => rw [hj, hr] at h; exact Option.noConfusion h
          | some tl => rw [hj, hr] at h; exact Option.noConfusion h
      | some k =>
          cases hr : resolveAll ok rest with
          | none => rw [hj, hr] at h; exact Option.noConfusion h
          | some tl =>
              rw [hj, hr] at h
              cases h
              by_cases hij : j = i
              · subst hij
                simp [alookup, hj]
              · rcases List.mem_cons.mp hi with h' | h'
                · exact absurd h'.symm hij
                · simp only [alookup, if_neg hij]
                  exact resolveAll_alookup ok rest tl hr i h'

lemma resolveAll_count (ok : Oracle) (T : OrderKey) :
    ∀ (l : List EventId) (ps : List (EventId × OrderKey)),
      resolveAll ok l = some ps →
      (ps.filter (fun p => okLt p.2 T)).length
        = l.countP (fun i =>
            match ok i with | some k => okLt k T | none => false)
  | [], ps, h => by
      rw [resolveAll] at h
      cases h
      simp
  | j :: rest, ps, h => by
      rw [resolveAll] at h
      cases hj : ok j with
      | none =>
          cases hr : resolveAll ok rest with
          | none => rw [hj, hr] at h; exact Option.noConfusion h
          | some tl => rw [hj, hr] at h; exact Option.noConfusion h
      | some k =>
          cases hr : resolveAll ok rest with
          | none => rw [hj, hr] at h; exact Option.noConfusion h
          | some tl =>
              rw [hj, hr] at h
              cases h
              have ih := resolveAll_count ok T rest tl hr
              simp only [List.filter_cons, List.countP_cons, hj]
              cases hkT : okLt k T <;> simp [hkT, ih]

/-! ### Structural lemmas about the two operations -/

lemma isEventAfter_some_true {ok : Oracle} {a b : EventId} {kb : OrderKey}
    (hb : ok b = some kb) (h : isEventAfter ok a b = some true) :
    ∃ ka, ok a = some ka ∧ okLt kb ka = true := by
  cases hc : ok a with
  | none =>
      rw [isEventAfter, hc] at h
      exact Option.noConfusion h
  | some ka =>
      rw [isEventAfter, hc, hb] at h
      exact ⟨ka, rfl, by simpa using h⟩

lemma stale_update_noop (ok : Oracle) (m : Markers) (u : UserId)
    (e c : EventId) (k kc : OrderKey)
    (he : alookup m u = some e) (hk : ok e = some k) (hc : ok c = some kc)
    (hle : okLt k kc = false) :
    receivedClientReadMarker ok m u c = .ok { markers := m, notified := false }
    ∧ receivedClientReadMarkerAndPurgeHistory ok m u c
        = .ok { markers := m, notified := false, purged := none,
                trace := [.readMarkers, .releaseKey] } := by
  have hie : isEventAfter ok c e = some false := by
    simp only [isEventAfter, hc, hk, hle]
  constructor
  · simp only [receivedClientReadMarker, he, hie]
  · simp only [receivedClientReadMarkerAndPurgeHistory, he, hie]

lemma receivedClientReadMarker_markers (ok : Oracle) (m : Markers)
    (v : UserId) (c : EventId) (res : UpdateResult)
    (h : receivedClientReadMarker ok m v c = .ok res) :
    res.markers = m ∨ res.markers = setMarker m v c := by
  rw [receivedClientReadMarker] at h
  cases ha : alookup m v with
  | none =>
      simp only [ha, Except.ok.injEq] at h
      right
      rw [← h]
  | some ex =>
      simp only [ha] at h
      cases hie : isEventAfter ok c ex with
      | none =>
          rw [hie] at h
          exact Except.noConfusion h
      | some b =>
          cases b with
          | true =>
              simp only [hie, Except.ok.injEq] at h
              right
              rw [← h]
          | false =>
              simp only [hie, Except.ok.injEq] at h
              left
              rw [← h]

lemma purgeHistory_markers (ok : Oracle) (m : Markers)
    (v : UserId) (c : EventId) (res : PurgeResult)
    (h : receivedClientReadMarkerAndPurgeHistory ok m v c = .ok res) :
    res.markers = m ∨ res.markers = setMarker m v c := by
  rw [receivedClientReadMarkerAndPurgeHistory] at h
  cases ha : alookup m v with
  | none =>
      simp only [ha] at h
      cases hgo : getEventsOrderings ok (m.map Prod.snd ++ [c]) with
      | none =>
          simp only [hgo] at h
          exact Except.noConfusion h
      | some eventsOrder =>
          simp only [hgo] at h
          cases hal : alookup eventsOrder c with
          | none =>
              simp only [hal] at h
              exact Except.noConfusion h
          | some thisOrder =>
              simp only [hal, Except.ok.injEq] at h
              right
              rw [← h]
  | some ex =>
      simp only [ha] at h
      cases hie : isEventAfter ok c ex with
      | none =>
          rw [hie] at h
          exact Except.noConfusion h
      | some b =>
          cases b with
          | true =>
              simp only [hie] at h
              cases hgo : getEventsOrderings ok (m.map Prod.snd ++ [c]) with
              | none =>
                  simp only [hgo] at h
                  exact Except.noConfusion h
              | some eventsOrder =>
                  simp only [hgo] at h
                  cases hal : alookup eventsOrder c with
                  | none =>
                      simp only [hal] at h
                      exact Except.noConfusion h
                  | some thisOrder =>
                      simp only [hal, Except.ok.injEq] at h
                      right
                      rw [← h]
          | false =>
              simp only [hie, Except.ok.injEq] at h
              left
              rw [← h]

lemma purge_result_of_applies (ok : Oracle) (m : Markers) (u : UserId)
    (e : EventId) (T : OrderKey) (r : PurgeResult)
    (hT : ok e = some T)
    (happ : updateAppliesB ok m u e = true)
    (h : receivedClientReadMarkerAndPurgeHistory ok m u e = .ok r) :
    r.markers = setMarker m u e ∧ r.notified = true
    ∧ r.purged = (if specShouldRetain ok m e T then some T else none)
    ∧ r.trace = [TraceStep.readMarkers, TraceStep.writeMarker u e,
                 TraceStep.notifyUser u, TraceStep.releaseKey]
        ++ (if specShouldRetain ok m e T then [TraceStep.retain T]
            else []) := by
  rw [receivedClientReadMarkerAndPurgeHistory] at h
  cases hgo : getEventsOrderings ok (m.map Prod.snd ++ [e]) with
  | none =>
      cases ha : alookup m u with
      | none =>
          simp only [ha, hgo] at h
          exact Except.noConfusion h
      | some ex =>
          have hie : isEventAfter ok e ex = some true := by
            rw [updateAppliesB, ha] at happ
            simpa using happ
          simp only [ha, hie, hgo] at h
          exact Except.noConfusion h
  | some eventsOrder =>
      have hgo' : resolveAll ok (m.map Prod.snd ++ [e]).dedup
          = some eventsOrder := by
        rw [getEventsOrderings] at hgo
        exact hgo
      have hmem : e ∈ (m.map Prod.snd ++ [e]).dedup :=
        List.mem_dedup.mpr (by simp)
      have hal : alookup eventsOrder e = some T := by
        rw [resolveAll_alookup ok _ eventsOrder hgo' e hmem, hT]
      have hcnt := resolveAll_count ok T _ eventsOrder hgo'
      have main : (Except.ok
          { markers := setMarker m u e,
            notified := true,
            purged := if ((eventsOrder.filter
                 (fun p => okLt p.2 T)).length == 1 || m.isEmpty)
              then some T else none,
            trace := [TraceStep.readMarkers, TraceStep.writeMarker u e,
                      TraceStep.notifyUser u, TraceStep.releaseKey]
              ++ (if ((eventsOrder.filter
                    (fun p => okLt p.2 T)).length == 1 || m.isEmpty)
                  then [TraceStep.retain T] else []) }
            : Except MarkerError PurgeResult) = Except.ok r →
          r.markers = setMarker m u e ∧ r.notified = true
          ∧ r.purged = (if specShouldRetain ok m e T then some T else none)
          ∧ r.trace = [TraceStep.readMarkers, TraceStep.writeMarker u e,
                       TraceStep.notifyUser u, TraceStep.releaseKey]
              ++ (if specShouldRetain ok m e T then [TraceStep.retain T]
                  else []) := by
        intro h'
        rw [Except.ok.injEq] at h'
        subst h'
        have hspec : specShouldRetain ok m e T
            = ((eventsOrder.filter
                  (fun p => okLt p.2 T)).length == 1 || m.isEmpty) := by
          rw [specShouldRetain, hcnt]
        rw [hspec]
        exact ⟨rfl, rfl, rfl, rfl⟩
      cases ha : alookup m u with
      | none =>
          simp only [ha, hgo, hal] at h
          exact main h
      | some ex =>
          have hie : isEventAfter ok e ex = some true := by
            rw [updateAppliesB, ha] at happ
            simpa using happ
          simp only [ha, hie, hgo, hal] at h
          exact main h

lemma applyOp_mono (ok : Oracle) (m : Markers) (o : Op) (u : UserId)
    (e : EventId) (k : OrderKey)
    (he : alookup m u = some e) (hk : ok e = some k) :
    ∃ e' k', alookup (applyOp ok m o) u = some e' ∧ ok e' = some k'
      ∧ okLt k' k = false := by
  cases o with
  | update v c =>
      by_cases hvu : v = u
      · subst hvu
        simp only [applyOp, receivedClientReadMarker, he]
        cases hie : isEventAfter ok c e with
        | none => exact ⟨e, k, he, hk, okLt_irrefl k⟩
        | some b =>
            cases b with
            | false => exact ⟨e, k, he, hk, okLt_irrefl k⟩
            | true =>
                obtain ⟨kc, hkc, hlt⟩ := isEventAfter_some_true hk hie
                exact ⟨c, kc, alookup_setMarker_self m v c, hkc,
                  okLt_asymm hlt⟩
      · refine ⟨e, k, ?_, hk, okLt_irrefl k⟩
        simp only [applyOp]
        cases hr : receivedClientReadMarker ok m v c with
        | error err => exact he
        | ok res =>
            show alookup res.markers u = some e
            rcases receivedClientReadMarker_markers ok m v c res hr with
              h' | h'
            · rw [h']; exact he
            · rw [h', alookup_setMarker_ne m v u c hvu]; exact he
  | updatePurge v c =>
      by_cases hvu : v = u
      · subst hvu
        simp only [applyOp]
        cases hr : receivedClientReadMarkerAndPurgeHistory ok m v c with
        | error err => exact ⟨e, k, he, hk, okLt_irrefl k⟩
        | ok res =>
            show ∃ e' k', alookup res.markers v = some e' ∧ ok e' = some k'
              ∧ okLt k' k = false
            rw [receivedClientReadMarkerAndPurgeHistory] at hr
            simp only [he] at hr
            cases hie : isEventAfter ok c e with
            | none =>
                rw [hie] at hr
                exact Except.noConfusion hr
            | some b =>
                cases b with
                | false =>
                    simp only [hie, Except.ok.injEq] at hr
                    rw [← hr]
                    exact ⟨e, k, he, hk, okLt_irrefl k⟩
                | true =>
                    simp only [hie] at hr
                    obtain ⟨kc, hkc, hlt⟩ := isEventAfter_some_true hk hie
                    cases hgo : getEventsOrderings ok
                        (m.map Prod.snd ++ [c]) with
                    | none =>
                        simp only [hgo] at hr
                        exact Except.noConfusion hr
                    | some eventsOrder =>
                        simp only [hgo] at hr
                        cases hal : alookup eventsOrder c with
                        | none =>
                            simp only [hal] at hr
                            exact Except.noConfusion hr
                        | some thisOrder =>
                            simp only [hal, Except.ok.injEq] at hr
                            rw [← hr]
                            exact ⟨c, kc, alookup_setMarker_self m v c,
                              hkc, okLt_asymm hlt⟩
      · refine ⟨e, k, ?_, hk, okLt_irrefl k⟩
        simp only [applyOp]
        cases hr : receivedClientReadMarkerAndPurgeHistory ok m v c with
        | error err => exact he
        | ok res =>
            show alookup res.markers u = some e
            rcases purgeHistory_markers ok m v c res hr with h' | h'
            · rw [h']; exact he
            · rw [h', alookup_setMarker_ne m v u c hvu]; exact he

lemma foldl_applyOp_mono (ok : Oracle) :
    ∀ (ops : List Op) (m : Markers) (u : UserId) (e : EventId) (k : OrderKey),
      alookup m u = some e → ok e = some k →
      ∃ e' k', alookup (ops.foldl (applyOp ok) m) u = some e'
        ∧ ok e' = some k' ∧ okLt k' k = false
  | [], m, u, e, k, he, hk => ⟨e, k, he, hk, okLt_irrefl k⟩
  | o :: rest, m, u, e, k, he, hk => by
      obtain ⟨e1, k1, h1, hk1, hlt1⟩ := applyOp_mono ok m o u e k he hk
      obtain ⟨e', k', h', hk', hlt'⟩ :=
        foldl_applyOp_mono ok rest (applyOp ok m o) u e1 k1 h1 hk1
      exact ⟨e', k', by simpa using h', hk', okLt_false_trans hlt1 hlt'⟩

lemma runSerialized_cons (ok : Oracle) (m : Markers)
    (r : UserId × EventId) (reqs : List (UserId × EventId)) :
    runSerialized ok m (r :: reqs)
      = runSerialized ok
          (match receivedClientReadMarker ok m r.1 r.2 with
            | .ok res => res.markers
            | .error _ => m) reqs := by
  rw [runSerialized, runSerialized, List.foldl_cons]

lemma runSerialized_from (ok : Oracle) (u : UserId) :
    ∀ (l : List EventId) (m : Markers) (e : EventId),
      alookup m u = some e →
      List.Chain' (fun a b => ∃ ka kb, ok a = some ka ∧ ok b = some kb
        ∧ okLt ka kb = true) (e :: l) →
      alookup (runSerialized ok m (l.map (fun x => (u, x)))) u
        = some ((e :: l).getLast (List.cons_ne_nil e l))
  | [], m, e, he, _ => by simpa [runSerialized] using he
  | e' :: l', m, e, he, hch => by
      obtain ⟨ka, kb, hka, hkb, hlt⟩ := (List.chain'_cons.mp hch).1
      have hie : isEventAfter ok e' e = some true := by
        simp only [isEventAfter, hka, hkb, hlt]
      have hstep : receivedClientReadMarker ok m u e'
          = .ok { markers := setMarker m u e', notified := true } := by
        simp only [receivedClientReadMarker, he, hie]
      rw [List.map_cons, runSerialized_cons, hstep]
      have ih := runSerialized_from ok u l' (setMarker m u e') e'
        (alookup_setMarker_self m u e') (List.chain'_cons.mp hch).2
      rw [List.getLast_cons (List.cons_ne_nil e' l')]
      exact ih

/-! ### Claim theorems -/

/-- C1: whenever the room-wide update applies, the retention decision the
code takes equals the specification's formula: with candidate set = all
event ids currently in the room's mapping (the updating user's old marker
included) plus the candidate, and `count` = number of distinct ids in that
set with OrderKey strictly below the candidate's key `T`, retention fires
(with watermark `T`) iff `count = 1` or the fetched mapping was empty. -/
theorem C1_retention_decision (ok : Oracle) (m : Markers) (u : UserId)
    (e : EventId) (T : OrderKey) (r : PurgeResult)
    (hT : ok e = some T)
    (happ : updateAppliesB ok m u e = true)
    (h : receivedClientReadMarkerAndPurgeHistory ok m u e = .ok r) :
    r.purged = (if specShouldRetain ok m e T then some T else none) :=
  (purge_result_of_applies ok m u e T r hT happ h).2.2.1

/-- Witness for C1 at the two-user configuration {A ↦ (5,0)}, B updating
to an event with key (8,0). -/
theorem C1_retention_decision_witness :
    ({ markers := [(0, 1), (1, 2)], notified := true, purged := some (8, 0),
       trace := [.readMarkers, .writeMarker 1 2, .notifyUser 1,
                 .releaseKey, .retain (8, 0)] } : PurgeResult).purged
      = (if specShouldRetain oracleExamples [(0, 1)] 2 (8, 0)
         then some (8, 0) else none) :=
  C1_retention_decision oracleExamples [(0, 1)] 1 2 (8, 0)
    { markers := [(0, 1), (1, 2)], notified := true, purged := some (8, 0),
      trace := [.readMarkers, .writeMarker 1 2, .notifyUser 1,
                .releaseKey, .retain (8, 0)] } rfl rfl rfl

/-- C2: for a fixed (room, user), under any sequence of updates via either
operation the stored marker's OrderKey never decreases; and submitting a
candidate whose OrderKey is ≤ the stored one leaves the state unchanged
(an update is written only when no marker exists or the candidate is
strictly greater). -/
theorem C2_marker_monotone :
    (∀ (ok : Oracle) (ops : List Op) (m : Markers) (u : UserId)
        (e e' : EventId) (k k' : OrderKey),
        alookup m u = some e → ok e = some k →
        alookup (ops.foldl (applyOp ok) m) u = some e' → ok e' = some k' →
        okLt k' k = false)
    ∧ (∀ (ok : Oracle) (m : Markers) (u : UserId) (e c : EventId)
        (k kc : OrderKey),
        alookup m u = some e → ok e = some k → ok c = some kc →
        okLt k kc = false →
        applyOp ok m (Op.update u c) = m
        ∧ applyOp ok m (Op.updatePurge u c) = m) := by
  constructor
  · intro ok ops m u e e' k k' he hk he' hk'
    obtain ⟨e2, k2, h2, hk2, hlt⟩ := foldl_applyOp_mono ok ops m u e k he hk
    rw [he'] at h2
    injection h2 with h2
    subst h2
    rw [hk'] at hk2
    injection hk2 with hk2
    subst hk2
    exact hlt
  · intro ok m u e c k kc he hk hc hle
    obtain ⟨h1, h2⟩ := stale_update_noop ok m u e c k kc he hk hc hle
    constructor
    · simp only [applyOp, h1]
    · simp only [applyOp, h2]

/-- Witness for C2: one applied update from key (5,0) to (8,0) keeps the
order non-decreasing, and a stale candidate with key (5,0) against a
stored (8,0) changes nothing under either operation. -/
theorem C2_marker_monotone_witness :
    okLt (8, 0) (5, 0) = false
    ∧ (applyOp oracleExamples [(0, 2)] (Op.update 0 1) = [(0, 2)]
       ∧ applyOp oracleExamples [(0, 2)] (Op.updatePurge 0 1) = [(0, 2)]) :=
  ⟨C2_marker_monotone.1 oracleExamples [Op.update 0 2] [(0, 1)] 0 1 2
      (5, 0) (8, 0) rfl rfl rfl rfl,
   C2_marker_monotone.2 oracleExamples [(0, 2)] 0 2 1 (8, 0) (5, 0)
      rfl rfl rfl rfl⟩

/-- C3: two-user example — with marker map {A(=0) ↦ event 1 of key (5,0)},
user B(=1) updating to event 2 of key (8,0) yields candidate set
{event 1, event 2}, exactly one id strictly below (8,0), and retention is
triggered with watermark (8,0). -/
theorem C3_two_user_example :
    (([(0, 1)] : Markers).map Prod.snd ++ [2]).dedup = [1, 2]
    ∧ (([(0, 1)] : Markers).map Prod.snd ++ [2]).dedup.countP
        (fun i => match oracleExamples i with
          | some k => okLt k (8, 0) | none => false) = 1
    ∧ receivedClientReadMarkerAndPurgeHistory oracleExamples [(0, 1)] 1 2
        = .ok { markers := [(0, 1), (1, 2)], notified := true,
                purged := some (8, 0),
                trace := [.readMarkers, .writeMarker 1 2, .notifyUser 1,
                          .releaseKey, .retain (8, 0)] } :=
  ⟨by decide, by decide, rfl⟩

/-- C4: non-advancing example — with {A(=0) ↦ key (5,0), B(=1) ↦ key
(8,0)}, user A updating to event 3 of key (9,0) yields candidate set
{events 1, 2, 3}, two ids strictly below (9,0), and retention is NOT
triggered even though the room-wide minimum advanced from (5,0) to
(8,0). -/
theorem C4_non_advancing_example :
    (([(0, 1), (1, 2)] : Markers).map Prod.snd ++ [3]).dedup = [1, 2, 3]
    ∧ (([(0, 1), (1, 2)] : Markers).map Prod.snd ++ [3]).dedup.countP
        (fun i => match oracleExamples i with
          | some k => okLt k (9, 0) | none => false) = 2
    ∧ receivedClientReadMarkerAndPurgeHistory oracleExamples
        [(0, 1), (1, 2)] 0 3
        = .ok { markers := [(0, 3), (1, 2)], notified := true,
                purged := none,
                trace := [.readMarkers, .writeMarker 0 3, .notifyUser 0,
                          .releaseKey] } :=
  ⟨by decide, by decide, rfl⟩

/-- C5: on a room whose marker mapping is empty, the update always
applies: the marker for (room, user) is set to the candidate event,
notification fires, and retention is invoked with watermark equal to the
candidate's OrderKey. -/
theorem C5_empty_room_retention (ok : Oracle) (u : UserId) (e : EventId)
    (T : OrderKey) (hT : ok e = some T) :
    receivedClientReadMarkerAndPurgeHistory ok [] u e
      = .ok { markers := [(u, e)], notified := true, purged := some T,
              trace := [.readMarkers, .writeMarker u e, .notifyUser u,
                        .releaseKey, .retain T] } := by
  simp [receivedClientReadMarkerAndPurgeHistory, getEventsOrderings,
    resolveAll, alookup, hT, okLt_irrefl, setMarker]

/-- Witness for C5 at a concrete oracle and candidate of key (5,0). -/
theorem C5_empty_room_retention_witness :
    receivedClientReadMarkerAndPurgeHistory oracleExamples [] 0 1
      = .ok { markers := [(0, 1)], notified := true, purged := some (5, 0),
              trace := [.readMarkers, .writeMarker 0 1, .notifyUser 0,
                        .releaseKey, .retain (5, 0)] } :=
  C5_empty_room_retention oracleExamples 0 1 (5, 0) rfl

/-- C6 counterexample: with an oracle that resolves nothing and no
existing marker, `updateMarker` does NOT fail with UnknownEvent — it
succeeds and writes the unresolvable candidate, so the claim as stated
(for *every* call with an unresolvable id) is false at this input. -/
theorem C6_counterexample :
    oracleNone 5 = none
    ∧ receivedClientReadMarker oracleNone [] 0 5
        = .ok { markers := [(0, 5)], notified := true }
    ∧ receivedClientReadMarker oracleNone [] 0 5
        ≠ .error MarkerError.UnknownEvent :=
  ⟨rfl, rfl, fun hcontra => Except.noConfusion hcontra⟩

/-- C6 (amended): when a marker already exists for (room, user) and the
oracle cannot resolve the candidate event id, `updateMarker` fails with
UnknownEvent and the store is left untouched — no write, no
notification. -/
theorem C6_unknown_event_rejected (ok : Oracle) (m : Markers) (u : UserId)
    (e ex : EventId) (hex : alookup m u = some ex) (he : ok e = none) :
    receivedClientReadMarker ok m u e = .error .UnknownEvent
    ∧ applyOp ok m (Op.update u e) = m := by
  have hie : isEventAfter ok e ex = none := by
    cases hx : ok ex <;> simp [isEventAfter, he, hx]
  constructor
  · simp only [receivedClientReadMarker, hex, hie]
  · simp only [applyOp, receivedClientReadMarker, hex, hie]

/-- Witness for the amended C6: user 0 holds a marker and submits event 9,
which the example oracle cannot resolve. -/
theorem C6_unknown_event_rejected_witness :
    receivedClientReadMarker oracleExamples [(0, 1)] 0 9
      = .error MarkerError.UnknownEvent
    ∧ applyOp oracleExamples [(0, 1)] (Op.update 0 9) = [(0, 1)] :=
  C6_unknown_event_rejected oracleExamples [(0, 1)] 0 9 1 rfl rfl

/-- C7: resubmitting the currently stored event, or any candidate whose
OrderKey is not strictly greater, is a no-op reported as success — the
mapping is returned unchanged and no notification fires. -/
theorem C7_stale_resubmission_noop (ok : Oracle) (m : Markers) (u : UserId)
    (e ex : EventId) (k kc : OrderKey)
    (hex : alookup m u = some ex) (hk : ok ex = some k) (hc : ok e = some kc)
    (hle : okLt k kc = false) :
    receivedClientReadMarker ok m u e
      = .ok { markers := m, notified := false } :=
  (stale_update_noop ok m u ex e k kc hex hk hc hle).1

/-- Witness for C7: user 0 resubmits its stored event 2 (key (8,0)). -/
theorem C7_stale_resubmission_noop_witness :
    receivedClientReadMarker oracleExamples [(0, 2)] 0 2
      = .ok { markers := [(0, 2)], notified := false } :=
  C7_stale_resubmission_noop oracleExamples [(0, 2)] 0 2 2 (8, 0) (8, 0)
    rfl rfl rfl rfl

/-- C8: when the room-wide update applies, the marker write and the
notification happen unconditionally — the committed mapping is
`setMarker m u e` whatever the retention decision — and in the observable
step order the retention trigger (if any) comes strictly after the marker
write, the notification and the release of the serialization key, so a
retention failure cannot undo the already-committed write. -/
theorem C8_write_before_retention (ok : Oracle) (m : Markers) (u : UserId)
    (e : EventId) (T : OrderKey) (r : PurgeResult)
    (hT : ok e = some T)
    (happ : updateAppliesB ok m u e = true)
    (h : receivedClientReadMarkerAndPurgeHistory ok m u e = .ok r) :
    r.markers = setMarker m u e ∧ r.notified = true
    ∧ (∃ rest, r.trace
          = [TraceStep.readMarkers, TraceStep.writeMarker u e,
             TraceStep.notifyUser u, TraceStep.releaseKey] ++ rest
        ∧ ∀ a ∈ rest, ∃ w, a = TraceStep.retain w) := by
  obtain ⟨h1, h2, _h3, h4⟩ := purge_result_of_applies ok m u e T r hT happ h
  refine ⟨h1, h2, ?_⟩
  by_cases hs : specShouldRetain ok m e T = true
  · refine ⟨[TraceStep.retain T], ?_, ?_⟩
    · rw [h4, if_pos hs]
    · intro a ha
      simp only [List.mem_singleton] at ha
      exact ⟨T, ha⟩
  · refine ⟨[], ?_, ?_⟩
    · rw [h4, if_neg hs]
    · intro a ha
      exact absurd ha (List.not_mem_nil a)

/-- Witness for C8 at the two-user configuration of C3. -/
theorem C8_write_before_retention_witness :
    ({ markers := [(0, 1), (1, 2)], notified := true, purged := some (8, 0),
       trace := [.readMarkers, .writeMarker 1 2, .notifyUser 1,
                 .releaseKey, .retain (8, 0)] } : PurgeResult).markers
        = setMarker [(0, 1)] 1 2
    ∧ ({ markers := [(0, 1), (1, 2)], notified := true,
         purged := some (8, 0),
         trace := [.readMarkers, .writeMarker 1 2, .notifyUser 1,
                   .releaseKey, .retain (8, 0)] } : PurgeResult).notified
        = true
    ∧ (∃ rest,
        ({ markers := [(0, 1), (1, 2)], notified := true,
           purged := some (8, 0),
           trace := [.readMarkers, .writeMarker 1 2, .notifyUser 1,
                     .releaseKey, .retain (8, 0)] } : PurgeResult).trace
          = [TraceStep.readMarkers, TraceStep.writeMarker 1 2,
             TraceStep.notifyUser 1, TraceStep.releaseKey] ++ rest
        ∧ ∀ a ∈ rest, ∃ w, a = TraceStep.retain w) :=
  C8_write_before_retention oracleExamples [(0, 1)] 1 2 (8, 0)
    { markers := [(0, 1), (1, 2)], notified := true, purged := some (8, 0),
      trace := [.readMarkers, .writeMarker 1 2, .notifyUser 1,
                .releaseKey, .retain (8, 0)] } rfl rfl rfl

/-- C9: under the FIFO keyed serializer (see `runSerialized`), N same-key
`updateMarker` requests with strictly increasing OrderKeys, admitted in
increasing order onto a (room, user) with no marker yet, leave the final
stored marker equal to the last request admitted — no lost updates. -/
theorem C9_serialization_correctness (ok : Oracle) (m : Markers)
    (u : UserId) (events : List EventId) (hne : events ≠ [])
    (hnone : alookup m u = none)
    (hch : List.Chain' (fun a b => ∃ ka kb, ok a = some ka ∧ ok b = some kb
      ∧ okLt ka kb = true) events) :
    alookup (runSerialized ok m (events.map (fun x => (u, x)))) u
      = some (events.getLast hne) := by
  cases events with
  | nil => exact absurd rfl hne
  | cons e l =>
      have hstep : receivedClientReadMarker ok m u e
          = .ok { markers := setMarker m u e, notified := true } := by
        simp only [receivedClientReadMarker, hnone]
      rw [List.map_cons, runSerialized_cons, hstep]
      exact runSerialized_from ok u l (setMarker m u e) e
        (alookup_setMarker_self m u e) hch

/-- Witness for C9: three requests with keys (5,0) < (8,0) < (9,0) leave
event 3 as the final marker. -/
theorem C9_serialization_correctness_witness :
    alookup (runSerialized oracleExamples []
      ([1, 2, 3].map (fun x => ((0 : UserId), x)))) 0 = some 3 :=
  C9_serialization_correctness oracleExamples [] 0 [1, 2, 3]
    (by simp) rfl
    (List.chain'_cons.mpr ⟨⟨(5, 0), (8, 0), rfl, rfl, rfl⟩,
      List.chain'_cons.mpr ⟨⟨(8, 0), (9, 0), rfl, rfl, rfl⟩,
        List.chain'_singleton 3⟩⟩)

/-- C10: when no marker exists yet for (room, user), `updateMarker` never
consults the ordering oracle: for every oracle — resolvable candidate or
not — the candidate is persisted and the notification fires, so a first
update cannot fail with UnknownEvent. -/
theorem C10_first_update_never_fails (ok : Oracle) (m : Markers)
    (u : UserId) (e : EventId) (h : alookup m u = none) :
    receivedClientReadMarker ok m u e
      = .ok { markers := setMarker m u e, notified := true } := by
  simp only [receivedClientReadMarker, h]

/-- Witness for C10: a first update with an id the oracle cannot resolve
still succeeds and writes. -/
theorem C10_first_update_never_fails_witness :
    receivedClientReadMarker oracleNone [] 1 7
      = .ok { markers := setMarker [] 1 7, notified := true } :=
  C10_first_update_never_fails oracleNone [] 1 7 rfl
